import Mathlib

/-!
Verification of the SEEU campus-map renderer (`Project/main.js`).

The development shallowly embeds the data-handling core of the program:
the coordinate projection, the GeoJSON polygon processing of the road and
building loading paths, the walkway loader with its sentinel-colour hole
features, the batched building loader with its completion signal, and the
pointer-driven selection highlight.  JavaScript numbers are idealised as
rationals; nullable / optional JS values are modelled with `Option`.
-/

namespace Campus

/-- A planar coordinate pair, the idealised JS number pair `[lon, lat]`
or `[x, y]`. -/
abbrev Coord := ℚ × ℚ

/-- A GeoJSON ring: an ordered list of `[lon, lat]` pairs. -/
abbrev Ring := List Coord

/-- Embeds `projectCoord([lon, lat])` (main.js lines 117-120):
`[(lon - 20.96) * 100000, (lat - 41.985) * 100000]` with
`scale = 100000`. -/
def projectCoord (c : Coord) : Coord :=
  ((c.1 - 20.96) * 100000, (c.2 - 41.985) * 100000)

/-- The projected path of one ring: every point is mapped through
`projectCoord`, in order (the `forEach` with `moveTo` / `lineTo`). -/
def ringPath (r : Ring) : List Coord :=
  r.map projectCoord

/-! ## Walkway loading (main.js lines 122-151)

A walkway feature carries `properties.fill` (`none` models a missing
property; a missing property compares unequal to the sentinel string, so
it counts as a main polygon, as in the source) and its
`geometry.coordinates` list of rings.  `coordinates[0]` is modelled with
`headD []`; the source assumes a first ring is present. -/

structure WFeature where
  fill : Option String
  coords : List Ring
deriving DecidableEq, Repr

/-- A shape handed to `THREE.ExtrudeGeometry`: the outline points written
by `moveTo` / `lineTo` plus the attached `shape.holes` paths. -/
structure Shape where
  points : List Coord
  holes : List (List Coord)
deriving DecidableEq, Repr

/-- Embeds `allHolePaths` (main.js lines 127-135): the projected first
rings of every feature whose fill property equals "#ff0000". -/
def walkwayHolePaths (features : List WFeature) : List (List Coord) :=
  (features.filter fun f => f.fill == some "#ff0000").map
    fun f => ringPath (f.coords.headD [])

/-- Embeds the `mainPolygons.forEach` body of `loadWalkways` (main.js
lines 126-149): one extruded shape per feature with
fill property not equal to "#ff0000", each with the shared hole list
attached as `shape.holes = allHolePaths`.
There is no point-count guard in this path. -/
def loadWalkways (features : List WFeature) : List Shape :=
  let allHolePaths := walkwayHolePaths features
  (features.filter fun f => f.fill != some "#ff0000").map
    fun f => { points := ringPath (f.coords.headD []), holes := allHolePaths }

/-! ## Road and building polygon processing
(main.js lines 153-195 and 232-275) -/

/-- The value found at `feature.properties?.estimated_height`, seen
through the JS `Number(...)` coercion: `absent` when the property (or the
whole `properties` object) is missing (`Number(undefined)` is NaN),
`nan` when the value is present but coerces to NaN, `num q` when it
coerces to the finite number `q`. -/
inductive HeightProp where
  | absent
  | nan
  | num (q : ℚ)
deriving DecidableEq, Repr

/-- Embeds `Number(feature.properties?.estimated_height) || 10`
(main.js lines 172 and 245): NaN and `0` are falsy, so both fall back to
the default 10. -/
def buildingHeight : HeightProp → ℚ
  | .absent => 10
  | .nan => 10
  | .num q => if q = 0 then 10 else q

/-- A GeoJSON geometry: `Polygon` coordinates are one list of rings,
`MultiPolygon` coordinates a list of such lists. -/
inductive Geometry where
  | polygon (coords : List Ring)
  | multiPolygon (coords : List (List Ring))
deriving DecidableEq, Repr

/-- Embeds the geometry-type dispatch (a Polygon wraps its coordinates
in a singleton list, a MultiPolygon keeps its list of polygons)
(main.js lines 158 and 235). -/
def Geometry.polygons : Geometry → List (List Ring)
  | .polygon c => [c]
  | .multiPolygon cs => cs

/-- One extruded mesh produced by the road / building paths: the shape
outline, the attached holes, and the extrusion depth. -/
structure BuildingMesh where
  shapePoints : List Coord
  shapeHoles : List (List Coord)
  depth : ℚ
deriving DecidableEq, Repr

/-- Embeds the per-polygon body shared by `loadGeoJson` (main.js lines
160-192) and `loadBatch` (lines 237-274): the guard
`if (!polygon || !polygon[0] || polygon[0].length < 3) return;` skips the
polygon (a `null` polygon and a missing first ring are both modelled by
the empty ring list), otherwise only `polygon[0]` is written into the
shape, no holes are attached, and the shape is extruded by `depth`. -/
def processPolygon (depth : ℚ) (polygon : List Ring) : Option BuildingMesh :=
  match polygon with
  | [] => none
  | outer :: _ =>
    if outer.length < 3 then none
    else some { shapePoints := ringPath outer, shapeHoles := [], depth := depth }

/-- A building feature as the building paths read it: its geometry and
its `estimated_height` property. -/
structure BFeature where
  geometry : Geometry
  estimatedHeight : HeightProp
deriving DecidableEq, Repr

/-- Embeds the `data.features.forEach` body of the building paths: every
polygon of the feature is processed with the feature height, skipped
polygons contribute nothing. -/
def processBuildingFeature (f : BFeature) : List BuildingMesh :=
  f.geometry.polygons.filterMap (processPolygon (buildingHeight f.estimatedHeight))

/-! ## Batched building loader (main.js lines 197-295)

`loadSplitBuildings` holds an ordered list of file names, a batch size
`buildingsPerBatch = 100` and a counter `loadedCount` that is incremented
only inside the success continuation of a fetch (line 277); the `catch`
handler (line 279) logs and does not touch the counter.  After
`Promise.all` over a batch settles, the loader either reschedules
`loadBatch(endIndex)` after a 50 ms `setTimeout` (when
`loadedCount < buildingFiles.length`) or calls `startTimeline()`.

The embedding replaces the file list by its per-file outcomes: `true`
when the fetch-and-process chain of that file succeeds (so `loadedCount`
is incremented), `false` when it fails (caught, counter untouched).  One
`loadBatch` invocation is one recursion step; `fuel` bounds the number of
observed invocations, since a failing run reschedules forever. -/

/-- The JS constant `buildingsPerBatch` (main.js line 214). -/
def buildingsPerBatch : ℕ := 100

/-- Observable events of the building loader: the fetches issued by one
`loadBatch` invocation (indices `[startIndex, endIndex)`), the
`setTimeout` delay before the next invocation, and the completion signal
(the `startTimeline()` call). -/
inductive LoaderEvent where
  | batch (startIndex endIndex : ℕ)
  | delay (ms : ℕ)
  | signal
deriving DecidableEq, Repr

/-- Embeds the `loadBatch` recursion (main.js lines 217-294):
at `startIndex` with accumulated `loadedCount`, compute
`endIndex = min(startIndex + buildingsPerBatch, N)`, fetch files
`[startIndex, endIndex)`, add the number of successes to `loadedCount`,
then either delay 50 ms and recurse at `endIndex`, or signal when
`loadedCount` has reached `N`.  (The `if (!fileName) continue` guard of
the source never skips anything, since every entry of the static file
list is a nonempty string, so every index is fetched.) -/
def runLoader (outcomes : List Bool) : ℕ → ℕ → ℕ → List LoaderEvent
  | 0, _, _ => []
  | fuel + 1, startIndex, loadedCount =>
    let n := outcomes.length
    let endIndex := min (startIndex + buildingsPerBatch) n
    let batchOutcomes := (outcomes.drop startIndex).take (endIndex - startIndex)
    let loadedCount2 := loadedCount + batchOutcomes.count true
    LoaderEvent.batch startIndex endIndex ::
      (if loadedCount2 < n then
        LoaderEvent.delay 50 :: runLoader outcomes fuel endIndex loadedCount2
      else [LoaderEvent.signal])

/-- The batches of a loader trace that actually issue fetches: an
invocation with `startIndex = endIndex` fetches nothing and is dropped. -/
def fetchBatches (evs : List LoaderEvent) : List (ℕ × ℕ) :=
  evs.filterMap fun e =>
    match e with
    | .batch s t => if s < t then some (s, t) else none
    | _ => none

/-- The batch schedule the loader walks through: starting points
`0, 100, 200, ...` up to `n`, each batch ending at
`min (start + 100) n`.  Structural fuel (`n` steps always suffice, since
each batch advances by at least one index). -/
def plannedBatchesAux (n : ℕ) : ℕ → ℕ → List (ℕ × ℕ)
  | 0, _ => []
  | fuel + 1, start =>
    if start < n then
      (start, min (start + buildingsPerBatch) n) ::
        plannedBatchesAux n fuel (min (start + buildingsPerBatch) n)
    else []

/-- The full planned batch schedule for `n` files. -/
def plannedBatches (n : ℕ) : List (ℕ × ℕ) :=
  plannedBatchesAux n n 0

/-! ## Timeline start ordering (main.js lines 93-99, 283-306)

`startTimeline()` runs `buildingAnimator.showBuildingsUpToYear(2001, true)`
and is invoked only from the completion branch of `loadBatch`;
`handleYearChange` forwards the year-change callback of `TimelineUI` to
`buildingAnimator.showBuildingsUpToYear(year, animate)`. -/

/-- Events reaching the timeline components: the loader completion signal
and a `showBuildingsUpToYear(year, animate)` call received by the
animator. -/
inductive AppEvent where
  | loaderSignal
  | yearChange (year : ℤ) (animate : Bool)
deriving DecidableEq, Repr

/-- Modelled from the spec: the class `TimelineUI` is instantiated in
main.js (line 93) but its source file is not part of the snapshot.  Per
the spec, the loader completion signal "triggers downstream timeline
initialization" and `TimelineUI` emits its year-change callbacks only
once the timeline is running, so an execution is modelled by the loader
outcomes together with the list of UI scrub events `(year, animate)`
that occur after initialization.  The source-derived part: the signal
appears exactly where `runLoader` emits it, `startTimeline` issues
`showBuildingsUpToYear(2001, true)` at the signal, and each UI event is
forwarded unchanged by `handleYearChange`. -/
def appTrace (outcomes : List Bool) (fuel : ℕ) (uiEvents : List (ℤ × Bool)) :
    List AppEvent :=
  let loaderEvs := runLoader outcomes fuel 0 0
  (loaderEvs.filterMap fun e =>
    match e with
    | LoaderEvent.signal => some AppEvent.loaderSignal
    | _ => none) ++
  (if LoaderEvent.signal ∈ loaderEvs then
    AppEvent.yearChange 2001 true :: uiEvents.map fun p => AppEvent.yearChange p.1 p.2
  else [])

/-! ## Selection and highlighting (main.js lines 309-343)

A mesh is reduced to the two fields the selection logic reads: the
building name stored in `userData` (`fileName` and `buildingName` are
always set together in `loadBatch`, and absent on every other mesh) and
the `material?.emissive` chain, `none` when the mesh has no material or
its material has no emissive colour.  The scene state carries the list of
scene meshes and the module-level `highlightedBuilding` reference,
modelled as an index into the list. -/

structure Mesh where
  buildingName : Option String
  emissive : Option ℕ
deriving DecidableEq, Repr

structure SceneState where
  meshes : List Mesh
  highlighted : Option ℕ
deriving DecidableEq, Repr

/-- The `material?.emissive` chain of the mesh at index `i`. -/
def meshEmissive (ms : List Mesh) (i : ℕ) : Option ℕ :=
  (ms.get? i).bind fun m => m.emissive

/-- Embeds `mesh.material.emissive.setHex(c)` for the mesh at index `i`: writes
the colour when the emissive slot exists, leaves the mesh alone
otherwise. -/
def setEmissiveAt : List Mesh → ℕ → ℕ → List Mesh
  | [], _, _ => []
  | m :: ms, 0, c => { m with emissive := m.emissive.map fun _ => c } :: ms
  | m :: ms, i + 1, c => m :: setEmissiveAt ms i c

/-- Embeds the first guard of `highlightBuilding` (main.js lines
333-335): if a building is highlighted and its material has an emissive
slot, reset it to `0x000000`. -/
def clearStep (s : SceneState) : List Mesh :=
  match s.highlighted with
  | some i =>
    if (meshEmissive s.meshes i).isSome then setEmissiveAt s.meshes i 0x000000
    else s.meshes
  | none => s.meshes

/-- Embeds `highlightBuilding(mesh)` (main.js lines 332-343): clear the
previous highlight, then if the target mesh exists and has an emissive
slot, paint it `0x1a304c` and remember it; otherwise the highlight
reference becomes `null`. -/
def highlightBuilding (s : SceneState) (target : Option ℕ) : SceneState :=
  let ms := clearStep s
  match target with
  | some j =>
    if (meshEmissive ms j).isSome then
      { meshes := setEmissiveAt ms j 0x1a304c, highlighted := some j }
    else { meshes := ms, highlighted := none }
  | none => { meshes := ms, highlighted := none }

/-- The `emissive.setHex(c)` method call made explicit: calling `setHex`
on a missing emissive slot is the JS `TypeError`, returned as an error
value. -/
def setHexE (ms : List Mesh) (i c : ℕ) : Except String (List Mesh) :=
  match meshEmissive ms i with
  | some _ => Except.ok (setEmissiveAt ms i c)
  | none => Except.error "TypeError"

/-- The first guard of `highlightBuilding` with the `setHex` call made
explicit, guards kept exactly as in the source. -/
def clearStepE (s : SceneState) : Except String (List Mesh) :=
  match s.highlighted with
  | some i =>
    if (meshEmissive s.meshes i).isSome then setHexE s.meshes i 0x000000
    else Except.ok s.meshes
  | none => Except.ok s.meshes

/-- The function `highlightBuilding` with every `setHex` method call made explicit:
an unguarded call on a mesh without an emissive slot would surface as an
error value. -/
def highlightBuildingE (s : SceneState) (target : Option ℕ) :
    Except String SceneState :=
  match clearStepE s with
  | Except.error e => Except.error e
  | Except.ok ms =>
    match target with
    | some j =>
      if (meshEmissive ms j).isSome then
        match setHexE ms j 0x1a304c with
        | Except.error e => Except.error e
        | Except.ok ms2 => Except.ok { meshes := ms2, highlighted := some j }
      else Except.ok { meshes := ms, highlighted := none }
    | none => Except.ok { meshes := ms, highlighted := none }

/-- Embeds `handlePointerClick` (main.js lines 309-330) after the ray
cast: `intersects` is the list of hit mesh indices ordered nearest
first (as `raycaster.intersectObjects` returns them).  A nearest hit
carrying a building name is highlighted; a nearest hit without one does
nothing at all; no hit clears the highlight. -/
def handlePointerClick (s : SceneState) (intersects : List ℕ) : SceneState :=
  match intersects with
  | i :: _ =>
    match (s.meshes.get? i).bind fun m => m.buildingName with
    | some _ => highlightBuilding s (some i)
    | none => s
  | [] => highlightBuilding s none

/-- A mesh of the list is lit when its emissive colour is the highlight
colour `0x1a304c`. -/
def litAt (ms : List Mesh) (i : ℕ) : Bool :=
  meshEmissive ms i == some 0x1a304c

/-- A mesh of the scene is lit when its emissive colour is the highlight
colour. -/
def isLit (s : SceneState) (i : ℕ) : Bool :=
  litAt s.meshes i

/-- The highlight invariant: every lit mesh is the one the module-level
`highlightedBuilding` reference points to — hence at most one mesh is
lit. -/
def highlightInv (s : SceneState) : Bool :=
  (List.range s.meshes.length).all fun i => !(isLit s i) || (s.highlighted == some i)

/-! ## Concrete instances used by the witnesses and counterexamples -/

/-- A walkway dataset with one sentinel hole feature and one main
feature. -/
def wWalk : List WFeature :=
  [⟨some "#ff0000", [[(0, 0), (1, 0), (0, 1)]]⟩, ⟨none, [[(0, 0), (2, 0), (0, 2)]]⟩]

/-- The shape the walkway loader builds from the main feature of
`wWalk`. -/
def wShape : Shape :=
  { points := ringPath [(0, 0), (2, 0), (0, 2)], holes := walkwayHolePaths wWalk }

/-- A walkway dataset whose only main feature has a 2-point ring. -/
def wShortWalk : List WFeature :=
  [⟨none, [[(0, 0), (1, 0)]]⟩]

/-- A 2-point ring. -/
def shortRing : Ring := [(0, 0), (1, 0)]

/-- A well-formed polygon placed before the short one. -/
def otherPolysA : List (List Ring) := [[[(9, 9), (9, 8), (8, 8)]]]

/-- A well-formed polygon placed after the short one. -/
def otherPolysB : List (List Ring) := [[[(5, 5), (5, 4), (4, 4)]]]

/-- A triangle ring. -/
def wTri : Ring := [(0, 0), (1, 0), (0, 1)]

/-- A building feature whose `estimated_height` is the valid number 0. -/
def zeroHeightFeature : BFeature :=
  { geometry := Geometry.polygon [[(0, 0), (1, 0), (0, 1)]],
    estimatedHeight := HeightProp.num 0 }

/-- A building feature whose `estimated_height` is the valid number 7. -/
def sevenHeightFeature : BFeature :=
  { geometry := Geometry.polygon [wTri], estimatedHeight := HeightProp.num 7 }

/-- The mesh the building path produces from `sevenHeightFeature`. -/
def sevenHeightMesh : BuildingMesh :=
  { shapePoints := ringPath wTri, shapeHoles := [],
    depth := buildingHeight (HeightProp.num 7) }

/-- A building feature with no `estimated_height` property. -/
def absentHeightFeature : BFeature :=
  { geometry := Geometry.polygon [wTri], estimatedHeight := HeightProp.absent }

/-- The mesh the building path produces from `absentHeightFeature`. -/
def absentHeightMesh : BuildingMesh :=
  { shapePoints := ringPath wTri, shapeHoles := [],
    depth := buildingHeight HeightProp.absent }

/-- The mesh the building path produces from the polygon `[wTri]`. -/
def wTriMesh : BuildingMesh :=
  { shapePoints := ringPath wTri, shapeHoles := [], depth := 10 }

/-- A scene with a highlighted building mesh and a second building
mesh. -/
def wScene : SceneState :=
  { meshes := [⟨some "library", some 0x1a304c⟩, ⟨some "dorm1", some 0x000000⟩],
    highlighted := some 0 }

/-- A scene with a highlighted building mesh and a non-building mesh
without material (the ground plane, walkways and roads carry no
`userData.buildingName`). -/
def groundScene : SceneState :=
  { meshes := [⟨some "library", some 0x1a304c⟩, ⟨none, none⟩],
    highlighted := some 0 }

/-! # Theorems -/

/-- Claim C7: `project(lon, lat)` computes
`((lon - originLon) * scale, (lat - originLat) * scale)` with the fixed
constants `originLon = 20.96`, `originLat = 41.985`, `scale = 100000`,
and is linear in the sense that
`project(lon + d, lat) - project(lon, lat) = (d * scale, 0)` for any `d`.
The embedding is a pure function, so determinism and absence of side
effects hold by construction (JS numbers idealised as rationals). -/
theorem projectCoord_formula_and_linearity :
    (∀ lon lat : ℚ, projectCoord (lon, lat) =
      ((lon - 20.96) * 100000, (lat - 41.985) * 100000)) ∧
    (∀ lon lat d : ℚ,
      (projectCoord (lon + d, lat)).1 - (projectCoord (lon, lat)).1 = d * 100000 ∧
      (projectCoord (lon + d, lat)).2 - (projectCoord (lon, lat)).2 = 0) := by
  refine ⟨fun lon lat => rfl, fun lon lat d => ⟨?_, ?_⟩⟩
  · simp only [projectCoord]
    ring
  · simp only [projectCoord]
    ring

/-- Claim C6: in the walkway dataset, exactly the features whose
`properties.fill` equals the sentinel "#ff0000" are hole-only (one
output shape per non-sentinel feature, so hole features produce no mesh
of their own), and every produced shape carries the one shared list
`walkwayHolePaths` as its holes. -/
theorem walkway_holes_shared (fs : List WFeature) :
    ((loadWalkways fs).length = (fs.filter fun f => f.fill != some "#ff0000").length) ∧
    ∀ s ∈ loadWalkways fs, s.holes = walkwayHolePaths fs ∧
      ∃ f ∈ fs, f.fill ≠ some "#ff0000" ∧ s.points = ringPath (f.coords.headD []) := by
  constructor
  · simp [loadWalkways]
  · intro s hs
    simp only [loadWalkways, List.mem_map, List.mem_filter] at hs
    obtain ⟨f, ⟨hf, hfill⟩, rfl⟩ := hs
    refine ⟨rfl, f, hf, ?_, rfl⟩
    simpa using hfill

/-- Witness for `walkway_holes_shared` at the concrete dataset
`wWalk`. -/
theorem walkway_holes_shared_witness :
    wShape ∈ loadWalkways wWalk ∧ wShape.holes = walkwayHolePaths wWalk ∧
    ∃ f ∈ wWalk, f.fill ≠ some "#ff0000" ∧ wShape.points = ringPath (f.coords.headD []) :=
  have hmem : wShape ∈ loadWalkways wWalk := List.mem_singleton.mpr rfl
  ⟨hmem, (walkway_holes_shared wWalk).2 wShape hmem⟩

/-- Claim C3, counterexample: the walkway loading path has no point-count
guard, so a main feature whose outer ring has only 2 points still
produces an extruded mesh (here one mesh whose shape outline has the 2
projected points), contradicting `for every geometry loading path,
extrusion produces no solid for a ring with fewer than 3 points`. -/
theorem walkway_short_ring_produces_mesh :
    (loadWalkways wShortWalk).length = 1 ∧
    ∀ s ∈ loadWalkways wShortWalk, s.points.length = 2 := by
  constructor
  · rfl
  · intro s hs
    simp [loadWalkways, wShortWalk, ringPath] at hs
    subst hs
    rfl

/-- Claim C3, amended: in the road and building loading paths
(`loadGeoJson` and `loadBatch`), a polygon whose outer ring has fewer
than 3 points produces no mesh and is skipped without affecting the
other polygons of the feature; the walkway path applies no such
guard. -/
theorem short_ring_skipped (d : ℚ) (outer : Ring) (rest : List Ring)
    (ps1 ps2 : List (List Ring)) (hshort : outer.length < 3) :
    processPolygon d (outer :: rest) = none ∧
    (ps1 ++ (outer :: rest) :: ps2).filterMap (processPolygon d) =
      (ps1 ++ ps2).filterMap (processPolygon d) := by
  have h : processPolygon d (outer :: rest) = none := by
    simp [processPolygon, hshort]
  exact ⟨h, by simp [List.filterMap_append, List.filterMap_cons, h]⟩

/-- Witness for `short_ring_skipped` at a concrete 2-point ring between
two well-formed polygons. -/
theorem short_ring_skipped_witness :
    processPolygon 10 [shortRing] = none ∧
    (otherPolysA ++ [shortRing] :: otherPolysB).filterMap (processPolygon 10) =
      (otherPolysA ++ otherPolysB).filterMap (processPolygon 10) :=
  short_ring_skipped 10 shortRing [] otherPolysA otherPolysB (by decide)

/-- Claim C10: the road and building loading paths write only
`polygon[0]` (the outer ring) into the extruded shape — the produced mesh
is unchanged whatever the remaining rings are — and attach no hole paths,
so road and building solids never contain holes. -/
theorem outer_ring_only (d : ℚ) (outer : Ring) (rest rest' : List Ring)
    (polys : List (List Ring)) :
    processPolygon d (outer :: rest) = processPolygon d (outer :: rest') ∧
    ∀ m ∈ polys.filterMap (processPolygon d), m.shapeHoles = [] := by
  refine ⟨rfl, ?_⟩
  intro m hm
  rw [List.mem_filterMap] at hm
  obtain ⟨p, _, hp⟩ := hm
  match p with
  | [] => simp [processPolygon] at hp
  | outer2 :: r =>
    by_cases h3 : outer2.length < 3
    · simp [processPolygon, h3] at hp
    · simp [processPolygon, h3] at hp
      rw [← hp]

/-- Witness for `outer_ring_only`: hole rings after the triangle are
ignored, and the concrete produced mesh has no holes. -/
theorem outer_ring_only_witness :
    processPolygon 10 (wTri :: [shortRing]) = processPolygon 10 (wTri :: []) ∧
    wTriMesh.shapeHoles = [] :=
  have hmem : wTriMesh ∈ [[wTri]].filterMap (processPolygon 10) :=
    List.mem_singleton.mpr rfl
  ⟨(outer_ring_only 10 wTri [shortRing] [] [[wTri]]).1,
   (outer_ring_only 10 wTri [] [] [[wTri]]).2 wTriMesh hmem⟩

/-- Claim C8, counterexample: a feature whose `estimated_height` is
present and is the valid number 0 is extruded with depth 10, not 0,
because `Number(h) || 10` treats 0 as falsy. -/
theorem zero_height_defaults_to_ten :
    (processBuildingFeature zeroHeightFeature).map (fun m => m.depth) = [10] ∧
    (10 : ℚ) ≠ 0 := by
  constructor
  · simp [processBuildingFeature, zeroHeightFeature, Geometry.polygons,
      processPolygon, buildingHeight]
  · norm_num

/-- Claim C8, amended: the extrusion depth of every produced building
mesh equals `estimated_height` when the property is present, a valid
number and nonzero, and equals the default 10 when the property is
absent, invalid (NaN) or zero. -/
theorem extrusion_depth_rule (f : BFeature) (m : BuildingMesh)
    (hm : m ∈ processBuildingFeature f) :
    (∀ q : ℚ, f.estimatedHeight = HeightProp.num q → q ≠ 0 → m.depth = q) ∧
    ((f.estimatedHeight = HeightProp.absent ∨ f.estimatedHeight = HeightProp.nan ∨
      f.estimatedHeight = HeightProp.num 0) → m.depth = 10) := by
  have hd : m.depth = buildingHeight f.estimatedHeight := by
    rw [processBuildingFeature, List.mem_filterMap] at hm
    obtain ⟨p, _, hp⟩ := hm
    match p with
    | [] => simp [processPolygon] at hp
    | outer :: r =>
      by_cases h3 : outer.length < 3
      · simp [processPolygon, h3] at hp
      · simp [processPolygon, h3] at hp
        rw [← hp]
  constructor
  · intro q hq hq0
    rw [hd, hq, buildingHeight, if_neg hq0]
  · rintro (h | h | h)
    · rw [hd, h, buildingHeight]
    · rw [hd, h, buildingHeight]
    · rw [hd, h]
      simp [buildingHeight]

/-- Witness for `extrusion_depth_rule`: a present nonzero height 7 is
used as depth, an absent height falls back to 10. -/
theorem extrusion_depth_rule_witness :
    sevenHeightMesh.depth = 7 ∧ absentHeightMesh.depth = 10 :=
  have h7 : sevenHeightMesh ∈ processBuildingFeature sevenHeightFeature :=
    List.mem_singleton.mpr rfl
  have ha : absentHeightMesh ∈ processBuildingFeature absentHeightFeature :=
    List.mem_singleton.mpr rfl
  ⟨(extrusion_depth_rule sevenHeightFeature sevenHeightMesh h7).1 7 rfl (by norm_num),
   (extrusion_depth_rule absentHeightFeature absentHeightMesh ha).2 (Or.inl rfl)⟩

/-! ## Loader lemmas -/

/-- A list of booleans containing `false` has fewer `true` entries than
elements. -/
theorem count_true_lt_of_false_mem :
    ∀ l : List Bool, false ∈ l → l.count true < l.length := by
  intro l
  induction l with
  | nil => intro h; cases h
  | cons b bs ih =>
    intro hmem
    rw [List.mem_cons] at hmem
    have hle := List.count_le_length true bs
    rcases hmem with h | h
    · rw [← h]
      simp [List.count_cons]
      omega
    · have := ih h
      cases b
      all_goals simp [List.count_cons]
      all_goals omega

/-- Core invariant of the failing loader: as long as the already-counted
successes plus every success still ahead stay below the file count, the
completion branch is unreachable. -/
theorem signal_not_in_runLoader (outcomes : List Bool) :
    ∀ (fuel startIndex count : ℕ), startIndex ≤ outcomes.length →
    count + (outcomes.drop startIndex).count true < outcomes.length →
    LoaderEvent.signal ∉ runLoader outcomes fuel startIndex count := by
  intro fuel
  induction fuel with
  | zero => intro s c _ _; simp [runLoader]
  | succ fuel ih =>
    intro s c hs hcount
    rw [runLoader]
    set n := outcomes.length with hn
    set e := min (s + buildingsPerBatch) n with he
    have hse : s ≤ e := le_min (Nat.le_add_right _ _) hs
    have hen : e ≤ n := min_le_right _ _
    have hsplit : (outcomes.drop s).count true =
        ((outcomes.drop s).take (e - s)).count true + (outcomes.drop e).count true := by
      have hdd : outcomes.drop e = (outcomes.drop s).drop (e - s) := by
        rw [List.drop_drop]
        congr 1
        omega
      rw [hdd, ← List.count_append, List.take_append_drop]
    have hc2 : c + ((outcomes.drop s).take (e - s)).count true +
        (outcomes.drop e).count true < n := by
      omega
    have hlt : c + ((outcomes.drop s).take (e - s)).count true < n := by omega
    simp only [hn.symm] at *
    rw [if_pos hlt]
    intro hmem
    simp only [List.mem_cons] at hmem
    rcases hmem with h | h | h
    · exact absurd h (by simp)
    · exact absurd h (by simp)
    · exact ih e _ hen hc2 h

/-- Unfolding `fetchBatches`: a fetching batch event is kept. -/
theorem fetchBatches_batch_lt (s t : ℕ) (h : s < t) (evs : List LoaderEvent) :
    fetchBatches (LoaderEvent.batch s t :: evs) = (s, t) :: fetchBatches evs := by
  simp [fetchBatches, List.filterMap_cons, h]

/-- Unfolding `fetchBatches`: an empty batch event is dropped. -/
theorem fetchBatches_batch_ge (s t : ℕ) (h : ¬ s < t) (evs : List LoaderEvent) :
    fetchBatches (LoaderEvent.batch s t :: evs) = fetchBatches evs := by
  simp [fetchBatches, List.filterMap_cons, h]

/-- Unfolding `fetchBatches`: delays are dropped. -/
theorem fetchBatches_delay (d : ℕ) (evs : List LoaderEvent) :
    fetchBatches (LoaderEvent.delay d :: evs) = fetchBatches evs := by
  simp [fetchBatches, List.filterMap_cons]

/-- Unfolding `fetchBatches`: the signal is dropped. -/
theorem fetchBatches_signal_cons (evs : List LoaderEvent) :
    fetchBatches (LoaderEvent.signal :: evs) = fetchBatches evs := by
  simp [fetchBatches, List.filterMap_cons]

/-- The planned schedule is empty past the file count. -/
theorem plannedBatchesAux_nil (n : ℕ) (fuel start : ℕ) (h : ¬ start < n) :
    plannedBatchesAux n fuel start = [] := by
  cases fuel with
  | zero => rfl
  | succ fuel => rw [plannedBatchesAux, if_neg h]

/-- The planned schedule does not depend on the fuel once the fuel covers
the remaining distance. -/
theorem plannedBatchesAux_stable (n : ℕ) :
    ∀ fuel fuel' start, n - start ≤ fuel → n - start ≤ fuel' →
    plannedBatchesAux n fuel start = plannedBatchesAux n fuel' start := by
  intro fuel
  induction fuel with
  | zero =>
    intro fuel' start h _
    have hn : ¬ start < n := by omega
    rw [plannedBatchesAux_nil n 0 start hn, plannedBatchesAux_nil n fuel' start hn]
  | succ fuel ih =>
    intro fuel' start h h'
    by_cases hlt : start < n
    · have hf' : ∃ f2, fuel' = f2 + 1 := by
        cases fuel' with
        | zero => omega
        | succ f2 => exact ⟨f2, rfl⟩
      obtain ⟨f2, rfl⟩ := hf'
      rw [plannedBatchesAux, plannedBatchesAux, if_pos hlt, if_pos hlt]
      have hstep : start < min (start + buildingsPerBatch) n := by
        rw [buildingsPerBatch]; omega
      congr 1
      apply ih
      · omega
      · omega
    · rw [plannedBatchesAux_nil n _ _ hlt, plannedBatchesAux_nil n _ _ hlt]

/-- The fetch batches of a loader trace are exactly the planned schedule
truncated to the same fuel: each invocation fetches the planned index
range before the next invocation is reached. -/
theorem fetchBatches_runLoader (outcomes : List Bool) :
    ∀ fuel start count, start ≤ outcomes.length → count ≤ start →
    fetchBatches (runLoader outcomes fuel start count) =
      plannedBatchesAux outcomes.length fuel start := by
  intro fuel
  induction fuel with
  | zero => intro s c _ _; rfl
  | succ fuel ih =>
    intro s c hs hc
    set n := outcomes.length with hn
    rw [runLoader, plannedBatchesAux]
    set e := min (s + buildingsPerBatch) n with he
    have hse : s ≤ e := le_min (Nat.le_add_right _ _) hs
    have hen : e ≤ n := min_le_right _ _
    have hcount : ((outcomes.drop s).take (e - s)).count true ≤ e - s := by
      calc ((outcomes.drop s).take (e - s)).count true
          ≤ ((outcomes.drop s).take (e - s)).length := List.count_le_length _ _
        _ ≤ e - s := by
            rw [List.length_take]
            exact min_le_left _ _
    by_cases hlt : s < n
    · have hse' : s < e := by
        simp only [he]
        rw [buildingsPerBatch]
        omega
      rw [if_pos hlt]
      by_cases hc2 : c + ((outcomes.drop s).take (e - s)).count true < n
      · rw [if_pos hc2, fetchBatches_batch_lt s e hse', fetchBatches_delay]
        congr 1
        exact ih e _ hen (by omega)
      · rw [if_neg hc2, fetchBatches_batch_lt s e hse', fetchBatches_signal_cons]
        rw [plannedBatchesAux_nil n fuel e (by omega)]
        rfl
    · rw [if_neg hlt]
      have hes : e = s := by simp only [he]; omega
      by_cases hc2 : c + ((outcomes.drop s).take (e - s)).count true < n
      · rw [if_pos hc2, fetchBatches_batch_ge s e (by omega), fetchBatches_delay]
        rw [ih e _ (by omega) (by omega), hes, plannedBatchesAux_nil n fuel s (by omega)]
      · rw [if_neg hc2, fetchBatches_batch_ge s e (by omega), fetchBatches_signal_cons]
        rfl

/-- Length of the planned schedule: one batch per started block of 100
indices. -/
theorem plannedBatchesAux_length (n : ℕ) :
    ∀ fuel start, n - start ≤ fuel →
    (plannedBatchesAux n fuel start).length = (n - start + 99) / 100 := by
  intro fuel
  induction fuel with
  | zero =>
    intro start h
    rw [plannedBatchesAux_nil n 0 start (by omega)]
    simp
    omega
  | succ fuel ih =>
    intro start h
    by_cases hlt : start < n
    · rw [plannedBatchesAux, if_pos hlt]
      rw [List.length_cons,
        ih (min (start + buildingsPerBatch) n) (by rw [buildingsPerBatch]; omega)]
      rw [buildingsPerBatch]
      omega
    · rw [plannedBatchesAux_nil n _ _ hlt]
      simp
      omega

/-- Every planned batch is nonempty and at most `buildingsPerBatch`
wide. -/
theorem plannedBatchesAux_sizes (n : ℕ) :
    ∀ fuel start, ∀ p ∈ plannedBatchesAux n fuel start,
      p.1 < p.2 ∧ p.2 - p.1 ≤ buildingsPerBatch := by
  intro fuel
  induction fuel with
  | zero => intro start p hp; cases hp
  | succ fuel ih =>
    intro start p hp
    by_cases hlt : start < n
    · rw [plannedBatchesAux, if_pos hlt, List.mem_cons] at hp
      rcases hp with h | h
      · rw [h]
        constructor
        · show start < min (start + buildingsPerBatch) n
          rw [buildingsPerBatch]; omega
        · show min (start + buildingsPerBatch) n - start ≤ buildingsPerBatch
          omega
      · exact ih _ p h
    · rw [plannedBatchesAux_nil n _ _ hlt] at hp
      cases hp

/-- The planned batches enumerate the indices `[start, n)` in order. -/
theorem plannedBatchesAux_flatten (n : ℕ) :
    ∀ fuel start, n - start ≤ fuel →
    ((plannedBatchesAux n fuel start).map fun p => List.range' p.1 (p.2 - p.1)).flatten =
      List.range' start (n - start) := by
  intro fuel
  induction fuel with
  | zero =>
    intro start h
    rw [plannedBatchesAux_nil n 0 start (by omega)]
    have h0 : n - start = 0 := by omega
    rw [h0]
    rfl
  | succ fuel ih =>
    intro start h
    by_cases hlt : start < n
    · rw [plannedBatchesAux, if_pos hlt]
      set e := min (start + buildingsPerBatch) n with he
      have h1 : start < e := by rw [he, buildingsPerBatch]; omega
      have h2 : e ≤ n := min_le_right _ _
      rw [List.map_cons, List.flatten_cons, ih e (by rw [he, buildingsPerBatch]; omega)]
      have key := List.range'_append start (e - start) (n - e) 1
      simp only [one_mul] at key
      have h3 : start + (e - start) = e := by omega
      rw [h3] at key
      rw [key]
      congr 1
      omega
    · rw [plannedBatchesAux_nil n _ _ hlt]
      have h0 : n - start = 0 := by omega
      rw [h0]
      rfl

/-- Every `setTimeout` delay the loader schedules is 50 ms. -/
theorem runLoader_delay_50 (outcomes : List Bool) :
    ∀ fuel start count d, LoaderEvent.delay d ∈ runLoader outcomes fuel start count →
      d = 50 := by
  intro fuel
  induction fuel with
  | zero => intro s c d h; cases h
  | succ fuel ih =>
    intro s c d h
    rw [runLoader] at h
    simp only [List.mem_cons] at h
    rcases h with h | h
    · exact absurd h (by simp)
    · split at h
      · simp only [List.mem_cons] at h
        rcases h with h | h
        · injection h
        · exact ih _ _ d h
      · simp only [List.mem_cons] at h
        rcases h with h | h
        · exact absurd h (by simp)
        · cases h

/-- Claim C1: the completion signal is driven by `loadedCount`, which
counts only successful fetches; when any of the `N` identifiers fails,
the signal (`startTimeline`) is never emitted, however long the loader
keeps rescheduling — even though all `N` identifiers have resolved.  The
code therefore does not implement the claimed `success or failure`
completion policy. -/
theorem loader_signal_never_fires_on_failure (outcomes : List Bool)
    (hfail : false ∈ outcomes) (fuel : ℕ) :
    LoaderEvent.signal ∉ runLoader outcomes fuel 0 0 := by
  apply signal_not_in_runLoader outcomes fuel 0 0 (Nat.zero_le _)
  simp only [List.drop_zero, Nat.zero_add]
  exact count_true_lt_of_false_mem outcomes hfail

/-- Witness for `loader_signal_never_fires_on_failure`: a single failing
file; five invocations pass with no signal. -/
theorem loader_signal_never_fires_on_failure_witness :
    LoaderEvent.signal ∉ runLoader [false] 5 0 0 :=
  loader_signal_never_fires_on_failure [false] (by decide) 5

/-- Claim C5: for any ordered list of `N` identifiers and the fixed batch
size `B = buildingsPerBatch = 100`, the fetch batches the loader issues
are exactly the planned schedule: `ceil(N/100)` batches, each nonempty
and of size at most 100, covering the identifiers in list order, one
batch settled in full before the next invocation is reached (the
recursion consumes the whole batch before continuing), with every
inter-batch delay equal to 50 ms. -/
theorem loader_batch_schedule (outcomes : List Bool) (fuel : ℕ)
    (hfuel : outcomes.length ≤ fuel) :
    fetchBatches (runLoader outcomes fuel 0 0) = plannedBatches outcomes.length ∧
    (plannedBatches outcomes.length).length = (outcomes.length + 99) / 100 ∧
    (∀ p ∈ plannedBatches outcomes.length, p.1 < p.2 ∧ p.2 - p.1 ≤ buildingsPerBatch) ∧
    ((plannedBatches outcomes.length).map fun p => List.range' p.1 (p.2 - p.1)).flatten =
      List.range outcomes.length ∧
    (∀ d, LoaderEvent.delay d ∈ runLoader outcomes fuel 0 0 → d = 50) := by
  set n := outcomes.length with hn
  refine ⟨?_, ?_, ?_, ?_, ?_⟩
  · rw [fetchBatches_runLoader outcomes fuel 0 0 (Nat.zero_le _) (Nat.le_refl _),
      plannedBatches]
    exact plannedBatchesAux_stable n fuel n 0 (by omega) (by omega)
  · rw [plannedBatches, plannedBatchesAux_length n n 0 (by omega)]
    omega
  · intro p hp
    exact plannedBatchesAux_sizes n n 0 p hp
  · rw [plannedBatches, plannedBatchesAux_flatten n n 0 (by omega),
      List.range_eq_range', Nat.sub_zero]
  · intro d hd
    exact runLoader_delay_50 outcomes fuel 0 0 d hd

/-- Witness for `loader_batch_schedule` at the 250-identifier example of
the spec: batches `(0,100), (100,200), (200,250)`, three of them, and the
one scheduled delay kind is 50 ms. -/
theorem loader_batch_schedule_witness :
    fetchBatches (runLoader (List.replicate 250 true) 250 0 0) = plannedBatches 250 ∧
    (plannedBatches 250).length = 3 ∧
    ((plannedBatches 250).map fun p => List.range' p.1 (p.2 - p.1)).flatten =
      List.range 250 ∧
    50 = 50 := by
  have h := loader_batch_schedule (List.replicate 250 true) 250
    (le_of_eq (List.length_replicate 250 true))
  rw [List.length_replicate] at h
  refine ⟨h.1, ?_, h.2.2.2.1, rfl⟩
  rw [h.2.1]

/-- The signal markers of any loader trace form `[]` or exactly
`[loaderSignal]`: the signal is terminal and emitted at most once. -/
theorem runLoader_signals (outcomes : List Bool) :
    ∀ fuel start count,
    (runLoader outcomes fuel start count).filterMap (fun e =>
      match e with
      | LoaderEvent.signal => some AppEvent.loaderSignal
      | _ => none) = [] ∨
    (runLoader outcomes fuel start count).filterMap (fun e =>
      match e with
      | LoaderEvent.signal => some AppEvent.loaderSignal
      | _ => none) = [AppEvent.loaderSignal] := by
  intro fuel
  induction fuel with
  | zero => intro s c; left; rfl
  | succ fuel ih =>
    intro s c
    rw [runLoader]
    split
    · simp only [List.filterMap_cons]
      exact ih _ _
    · right
      rfl

/-- When the signal is in the trace, the signal markers are exactly
`[loaderSignal]`. -/
theorem runLoader_signals_mem (outcomes : List Bool) (fuel start count : ℕ)
    (h : LoaderEvent.signal ∈ runLoader outcomes fuel start count) :
    (runLoader outcomes fuel start count).filterMap (fun e =>
      match e with
      | LoaderEvent.signal => some AppEvent.loaderSignal
      | _ => none) = [AppEvent.loaderSignal] := by
  rcases runLoader_signals outcomes fuel start count with hnil | hone
  · exfalso
    have hm : AppEvent.loaderSignal ∈ (runLoader outcomes fuel start count).filterMap
        (fun e => match e with
          | LoaderEvent.signal => some AppEvent.loaderSignal
          | _ => none) := by
      rw [List.mem_filterMap]
      exact ⟨LoaderEvent.signal, h, rfl⟩
    rw [hnil] at hm
    cases hm
  · exact hone

/-- When the signal is not in the trace, no signal marker is emitted. -/
theorem runLoader_signals_not_mem (outcomes : List Bool) (fuel start count : ℕ)
    (h : LoaderEvent.signal ∉ runLoader outcomes fuel start count) :
    (runLoader outcomes fuel start count).filterMap (fun e =>
      match e with
      | LoaderEvent.signal => some AppEvent.loaderSignal
      | _ => none) = [] := by
  rcases runLoader_signals outcomes fuel start count with hnil | hone
  · exact hnil
  · exfalso
    have hm : AppEvent.loaderSignal ∈ (runLoader outcomes fuel start count).filterMap
        (fun e => match e with
          | LoaderEvent.signal => some AppEvent.loaderSignal
          | _ => none) := by
      rw [hone]
      exact List.mem_singleton.mpr rfl
    rw [List.mem_filterMap] at hm
    obtain ⟨e, he, heq⟩ := hm
    match e with
    | LoaderEvent.signal => exact h he
    | LoaderEvent.batch a b => exact absurd heq (by simp)
    | LoaderEvent.delay d => exact absurd heq (by simp)

/-- Claim C2 (with `TimelineUI` modelled from the spec, its source file
being absent from the snapshot): in every modelled execution, any
`showBuildingsUpToYear` call received by the animator is preceded in the
trace by the loader completion signal. -/
theorem yearChange_after_loader_signal (outcomes : List Bool) (fuel : ℕ)
    (uiEvents : List (ℤ × Bool)) (pre post : List AppEvent) (y : ℤ) (a : Bool)
    (heq : appTrace outcomes fuel uiEvents = pre ++ AppEvent.yearChange y a :: post) :
    AppEvent.loaderSignal ∈ pre := by
  by_cases hsig : LoaderEvent.signal ∈ runLoader outcomes fuel 0 0
  · rw [appTrace] at heq
    simp only [if_pos hsig, runLoader_signals_mem outcomes fuel 0 0 hsig] at heq
    match pre with
    | [] =>
      rw [List.nil_append] at heq
      have hh := List.head_eq_of_cons_eq heq.symm
      cases hh
    | p :: pre' =>
      have hp := List.head_eq_of_cons_eq heq
      rw [← hp]
      exact List.mem_cons_self _ _
  · rw [appTrace] at heq
    simp only [if_neg hsig, runLoader_signals_not_mem outcomes fuel 0 0 hsig,
      List.nil_append] at heq
    exact absurd heq (by simp)

/-- Witness for `yearChange_after_loader_signal`: one successful file,
trace `[loaderSignal, yearChange 2001 true]`. -/
theorem yearChange_after_loader_signal_witness :
    appTrace [true] 1 [] = [AppEvent.loaderSignal] ++ [AppEvent.yearChange 2001 true] ∧
    AppEvent.loaderSignal ∈ [AppEvent.loaderSignal] :=
  ⟨by decide,
   yearChange_after_loader_signal [true] 1 [] [AppEvent.loaderSignal] [] 2001 true
     (by decide)⟩

/-! ## Selection and highlight lemmas -/

/-- Indexing after `setEmissiveAt`: only the written index changes, and
only in its emissive field. -/
theorem get?_setEmissiveAt (c : ℕ) :
    ∀ (ms : List Mesh) (i j : ℕ),
    (setEmissiveAt ms i c).get? j =
      if i = j then
        (ms.get? j).map fun m => { m with emissive := m.emissive.map fun _ => c }
      else ms.get? j := by
  intro ms
  induction ms with
  | nil =>
    intro i j
    cases i <;> simp [setEmissiveAt]
  | cons m ms ih =>
    intro i j
    match i, j with
    | 0, 0 => simp [setEmissiveAt]
    | 0, j + 1 => simp [setEmissiveAt]
    | i + 1, 0 => simp [setEmissiveAt]
    | i + 1, j + 1 =>
      simp only [setEmissiveAt, List.get?_cons_succ, ih i j]
      by_cases h : i = j
      · rw [if_pos h, if_pos (by omega)]
      · rw [if_neg h, if_neg (by omega)]

/-- The emissive chain after `setEmissiveAt`. -/
theorem meshEmissive_setEmissiveAt (ms : List Mesh) (i j c : ℕ) :
    meshEmissive (setEmissiveAt ms i c) j =
      if i = j then (meshEmissive ms j).map (fun _ => c) else meshEmissive ms j := by
  rw [meshEmissive, get?_setEmissiveAt c ms i j]
  by_cases h : i = j
  · rw [if_pos h, if_pos h, meshEmissive]
    cases ms.get? j with
    | none => rfl
    | some m => rfl
  · rw [if_neg h, if_neg h, meshEmissive]

/-- Writing an emissive colour keeps the mesh count. -/
theorem length_setEmissiveAt (c : ℕ) :
    ∀ (ms : List Mesh) (i : ℕ), (setEmissiveAt ms i c).length = ms.length := by
  intro ms
  induction ms with
  | nil => intro i; cases i <;> rfl
  | cons m ms ih =>
    intro i
    cases i with
    | zero => rfl
    | succ i => simp [setEmissiveAt, ih i]

/-- Unfolding `clearStep` on a state without a highlight reference. -/
theorem clearStep_none (ms : List Mesh) : clearStep ⟨ms, none⟩ = ms := rfl

/-- Unfolding `clearStep` on a state with a highlight reference. -/
theorem clearStep_some (ms : List Mesh) (i : ℕ) :
    clearStep ⟨ms, some i⟩ =
      if (meshEmissive ms i).isSome then setEmissiveAt ms i 0x000000 else ms := rfl

/-- Unfolding `highlightBuilding` with the `null` target. -/
theorem highlightBuilding_none (s : SceneState) :
    highlightBuilding s none = ⟨clearStep s, none⟩ := rfl

/-- Unfolding `highlightBuilding` with a mesh target. -/
theorem highlightBuilding_some (s : SceneState) (t : ℕ) :
    highlightBuilding s (some t) =
      if (meshEmissive (clearStep s) t).isSome then
        ⟨setEmissiveAt (clearStep s) t 0x1a304c, some t⟩
      else ⟨clearStep s, none⟩ := by
  rw [highlightBuilding.eq_def]

/-- An index past the scene is never lit. -/
theorem litAt_out_of_range (ms : List Mesh) (j : ℕ) (h : ms.length ≤ j) :
    litAt ms j = false := by
  rw [litAt, meshEmissive, List.get?_eq_none.mpr h]
  rfl

/-- The Boolean invariant in propositional form. -/
theorem highlightInv_iff (s : SceneState) :
    highlightInv s = true ↔ ∀ j, isLit s j = true → s.highlighted = some j := by
  rw [highlightInv, List.all_eq_true]
  constructor
  · intro h j hj
    by_cases hr : j < s.meshes.length
    · have h2 := h j (List.mem_range.mpr hr)
      rw [hj] at h2
      simpa using h2
    · rw [isLit, litAt_out_of_range s.meshes j (by omega)] at hj
      cases hj
  · intro h j _
    by_cases hl : isLit s j = true
    · rw [hl, h j hl]
      simp
    · rw [Bool.not_eq_true] at hl
      rw [hl]
      simp

/-- After the clearing guard of `highlightBuilding`, no mesh is lit
(assuming the invariant held). -/
theorem clearStep_unlit (s : SceneState)
    (hinv : ∀ j, isLit s j = true → s.highlighted = some j) (j : ℕ) :
    litAt (clearStep s) j = false := by
  obtain ⟨ms, hl⟩ := s
  by_cases hjlit : litAt ms j = true
  · have hh : some j = hl := (hinv j hjlit).symm
    have hjv : meshEmissive ms j = some 0x1a304c := by
      rw [litAt, beq_iff_eq] at hjlit
      exact hjlit
    have hem : (meshEmissive ms j).isSome = true := by
      rw [hjv]
      rfl
    rw [← hh, clearStep_some, if_pos hem, litAt, meshEmissive_setEmissiveAt,
      if_pos rfl, hjv]
    decide
  · rw [Bool.not_eq_true] at hjlit
    match hl with
    | none =>
      rw [clearStep_none]
      exact hjlit
    | some i =>
      rw [clearStep_some]
      by_cases hem : (meshEmissive ms i).isSome
      · rw [if_pos hem, litAt, meshEmissive_setEmissiveAt]
        by_cases hij : i = j
        · rw [if_pos hij]
          cases meshEmissive ms j with
          | none => rfl
          | some v => simp
        · rw [if_neg hij]
          exact hjlit
      · rw [if_neg hem]
        exact hjlit

/-- Clearing changes colours, never the presence of an emissive slot. -/
theorem clearStep_emissive_isSome (s : SceneState) (j : ℕ) :
    (meshEmissive (clearStep s) j).isSome = (meshEmissive s.meshes j).isSome := by
  obtain ⟨ms, hl⟩ := s
  match hl with
  | none => rfl
  | some i =>
    rw [clearStep_some]
    by_cases hem : (meshEmissive ms i).isSome
    · rw [if_pos hem]
      show (meshEmissive (setEmissiveAt ms i 0) j).isSome = _
      rw [meshEmissive_setEmissiveAt]
      by_cases hij : i = j
      · rw [if_pos hij]
        cases meshEmissive ms j <;> rfl
      · rw [if_neg hij]
    · rw [if_neg hem]

/-- The operation `highlightBuilding` preserves the highlight invariant. -/
theorem highlightBuilding_inv (s : SceneState) (target : Option ℕ)
    (hinv : ∀ j, isLit s j = true → s.highlighted = some j) :
    ∀ j, isLit (highlightBuilding s target) j = true →
      (highlightBuilding s target).highlighted = some j := by
  intro j hj
  match target with
  | none =>
    rw [highlightBuilding_none] at hj
    rw [isLit] at hj
    simp only at hj
    rw [clearStep_unlit s hinv j] at hj
    cases hj
  | some t =>
    rw [highlightBuilding_some] at hj ⊢
    by_cases hem : (meshEmissive (clearStep s) t).isSome
    · rw [if_pos hem] at hj ⊢
      rw [isLit] at hj
      simp only at hj
      rw [litAt, meshEmissive_setEmissiveAt] at hj
      by_cases htj : t = j
      · simp only [htj]
      · rw [if_neg htj] at hj
        have h2 := clearStep_unlit s hinv j
        rw [litAt] at h2
        rw [h2] at hj
        cases hj
    · rw [if_neg hem] at hj ⊢
      rw [isLit] at hj
      simp only at hj
      rw [clearStep_unlit s hinv j] at hj
      cases hj

/-- Selecting a mesh with an emissive slot: the old highlight is cleared
before the new one is painted, and only the new mesh ends up lit. -/
theorem highlightBuilding_selected (s : SceneState) (t : ℕ)
    (hinv : ∀ j, isLit s j = true → s.highlighted = some j)
    (hem : (meshEmissive s.meshes t).isSome = true) :
    (highlightBuilding s (some t)).highlighted = some t ∧
    isLit (highlightBuilding s (some t)) t = true ∧
    ∀ j, j ≠ t → isLit (highlightBuilding s (some t)) j = false := by
  have hem2 : (meshEmissive (clearStep s) t).isSome = true := by
    rw [clearStep_emissive_isSome]
    exact hem
  rw [highlightBuilding_some, if_pos hem2]
  refine ⟨rfl, ?_, ?_⟩
  · rw [isLit]
    simp only
    rw [litAt, meshEmissive_setEmissiveAt, if_pos rfl]
    rw [Option.isSome_iff_exists] at hem2
    obtain ⟨v, hv⟩ := hem2
    rw [hv]
    simp
  · intro j hjt
    rw [isLit]
    simp only
    rw [litAt, meshEmissive_setEmissiveAt, if_neg (fun h => hjt h.symm)]
    have h2 := clearStep_unlit s hinv j
    rw [litAt] at h2
    exact h2

/-- Calling `highlightBuilding` with the `null` target clears everything. -/
theorem highlightBuilding_none_unlit (s : SceneState)
    (hinv : ∀ j, isLit s j = true → s.highlighted = some j) :
    (highlightBuilding s none).highlighted = none ∧
    ∀ j, isLit (highlightBuilding s none) j = false := by
  rw [highlightBuilding_none]
  exact ⟨rfl, fun j => clearStep_unlit s hinv j⟩

/-- Unfolding `handlePointerClick` with no hit. -/
theorem handlePointerClick_nil (s : SceneState) :
    handlePointerClick s [] = highlightBuilding s none := rfl

/-- Unfolding `handlePointerClick` with a nearest hit. -/
theorem handlePointerClick_hit (s : SceneState) (i : ℕ) (rest : List ℕ) :
    handlePointerClick s (i :: rest) =
      match (s.meshes.get? i).bind fun m => m.buildingName with
      | some _ => highlightBuilding s (some i)
      | none => s := rfl

/-- Claim C4, counterexample: with a building highlighted, a pointer-down
whose nearest hit is a mesh without a building name (here the
material-less ground mesh of `groundScene`) leaves the state untouched:
the previous highlight is not cleared, contradicting the claim that in
every case the previously highlighted mesh has its highlight cleared. -/
theorem nonbuilding_hit_keeps_highlight :
    handlePointerClick groundScene [1] = groundScene ∧
    isLit (handlePointerClick groundScene [1]) 0 = true ∧
    (handlePointerClick groundScene [1]).highlighted = some 0 := by
  refine ⟨rfl, by decide, by decide⟩

/-- Claim C4, amended: on every pointer-down the selection uses the
nearest hit; when that hit carries a building identifier the previous
highlight is cleared (emissive reset) before the new highlight is
applied and only the new mesh is lit; when there is no hit the highlight
is cleared with nothing selected; when the nearest hit carries no
building identifier the click leaves the state unchanged (the previous
highlight persists).  In all cases the `at most one mesh highlighted`
invariant is preserved. -/
theorem pointer_click_highlight_discipline (s : SceneState) (its : List ℕ)
    (hinv : highlightInv s = true) :
    highlightInv (handlePointerClick s its) = true ∧
    (its = [] → ∀ j, isLit (handlePointerClick s its) j = false) ∧
    (∀ i rest, its = i :: rest →
      ((s.meshes.get? i).bind fun m => m.buildingName) = none →
      handlePointerClick s its = s) ∧
    (∀ i rest, its = i :: rest →
      (∃ nm, ((s.meshes.get? i).bind fun m => m.buildingName) = some nm) →
      (meshEmissive s.meshes i).isSome = true →
      (handlePointerClick s its).highlighted = some i ∧
      isLit (handlePointerClick s its) i = true ∧
      ∀ j, j ≠ i → isLit (handlePointerClick s its) j = false) := by
  rw [highlightInv_iff] at hinv
  refine ⟨?_, ?_, ?_, ?_⟩
  · rw [highlightInv_iff]
    match its with
    | [] =>
      rw [handlePointerClick_nil]
      exact highlightBuilding_inv s none hinv
    | i :: rest =>
      rw [handlePointerClick_hit]
      cases hbn : (s.meshes.get? i).bind fun m => m.buildingName with
      | none => exact hinv
      | some nm => exact highlightBuilding_inv s (some i) hinv
  · intro hnil j
    rw [hnil, handlePointerClick_nil]
    exact (highlightBuilding_none_unlit s hinv).2 j
  · intro i rest hits hbn
    rw [hits, handlePointerClick_hit, hbn]
  · intro i rest hits hbn hem
    obtain ⟨nm, hbn⟩ := hbn
    rw [hits, handlePointerClick_hit, hbn]
    exact highlightBuilding_selected s i hinv hem

/-- Witness for `pointer_click_highlight_discipline`: clicking the second
building of `wScene` moves the single highlight there. -/
theorem pointer_click_highlight_discipline_witness :
    highlightInv wScene = true ∧
    (handlePointerClick wScene [1]).highlighted = some 1 ∧
    isLit (handlePointerClick wScene [1]) 1 = true ∧
    isLit (handlePointerClick wScene [1]) 0 = false := by
  have h := pointer_click_highlight_discipline wScene [1] (by decide)
  obtain ⟨-, -, -, h4⟩ := h
  have h5 := h4 1 [] rfl ⟨"dorm1", by decide⟩ (by decide)
  exact ⟨by decide, h5.1, h5.2.1, h5.2.2 0 (by decide)⟩

/-- The call `setHexE` succeeds exactly under the emissive guard. -/
theorem setHexE_ok (ms : List Mesh) (i c : ℕ)
    (h : (meshEmissive ms i).isSome = true) :
    setHexE ms i c = Except.ok (setEmissiveAt ms i c) := by
  rw [setHexE]
  rw [Option.isSome_iff_exists] at h
  obtain ⟨v, hv⟩ := h
  rw [hv]

/-- The clearing guard never reaches a failing `setHex`. -/
theorem clearStepE_ok (s : SceneState) :
    clearStepE s = Except.ok (clearStep s) := by
  obtain ⟨ms, hl⟩ := s
  match hl with
  | none => rfl
  | some i =>
    show (if (meshEmissive ms i).isSome then setHexE ms i 0x000000
      else Except.ok ms) = Except.ok (clearStep ⟨ms, some i⟩)
    rw [clearStep_some]
    by_cases h : (meshEmissive ms i).isSome
    · rw [if_pos h, if_pos h, setHexE_ok ms i 0x000000 h]
    · rw [if_neg h, if_neg h]

/-- Claim C9: applying or clearing the highlight never throws — the
explicit-error semantics returns `ok` on every state and target,
including meshes whose material lacks an emissive slot — and a target
mesh without an emissive slot is skipped: the function only performs the
clearing step and records no highlight. -/
theorem highlight_no_throw_skip (s : SceneState) (target : Option ℕ) :
    highlightBuildingE s target = Except.ok (highlightBuilding s target) ∧
    (∀ t, target = some t → meshEmissive s.meshes t = none →
      highlightBuilding s target = ⟨clearStep s, none⟩) := by
  constructor
  · rw [highlightBuildingE, clearStepE_ok s]
    match target with
    | none => rfl
    | some t =>
      show (if (meshEmissive (clearStep s) t).isSome then
          match setHexE (clearStep s) t 0x1a304c with
          | Except.error e => Except.error e
          | Except.ok ms2 => Except.ok (⟨ms2, some t⟩ : SceneState)
        else Except.ok (⟨clearStep s, none⟩ : SceneState)) = _
      rw [highlightBuilding_some]
      by_cases h : (meshEmissive (clearStep s) t).isSome
      · rw [if_pos h, if_pos h, setHexE_ok _ t 0x1a304c h]
      · rw [if_neg h, if_neg h]
  · intro t htarget hnone
    rw [htarget, highlightBuilding_some, if_neg]
    rw [clearStep_emissive_isSome, hnone]
    simp

/-- Witness for `highlight_no_throw_skip`: targeting the material-less
ground mesh of `groundScene` returns `ok` and skips the paint step. -/
theorem highlight_no_throw_skip_witness :
    highlightBuildingE groundScene (some 1) =
      Except.ok (highlightBuilding groundScene (some 1)) ∧
    highlightBuilding groundScene (some 1) = ⟨clearStep groundScene, none⟩ :=
  ⟨(highlight_no_throw_skip groundScene (some 1)).1,
   (highlight_no_throw_skip groundScene (some 1)).2 1 rfl (by decide)⟩

end Campus
